import Mathlib

/-!
Verification development for the PDB-Engine command-execution core.

Shallow embedding of:
  * `src/API/core/valid_commands.py` (registry and command builder),
  * `src/API/core/security.py` (security validator),
  * `src/API/services/engine_executor.py` and
    `src/API/services/docker_executor.py` (execution backends and
    host-to-container path translation).

Strings are modelled by Lean `String` (lists of characters); Python's
`str.lower` / `re.IGNORECASE` is modelled by an ASCII case map, and
`pathlib` paths by a POSIX `PurePath` model (root + components).
-/

/-! ## Basic string helpers -/

/-- ASCII lower-casing of one character (model of Python lower-casing for
the ASCII letters; other characters are left unchanged). -/
def lowerChar (c : Char) : Char :=
  if c = 'A' then 'a' else if c = 'B' then 'b' else if c = 'C' then 'c'
  else if c = 'D' then 'd' else if c = 'E' then 'e' else if c = 'F' then 'f'
  else if c = 'G' then 'g' else if c = 'H' then 'h' else if c = 'I' then 'i'
  else if c = 'J' then 'j' else if c = 'K' then 'k' else if c = 'L' then 'l'
  else if c = 'M' then 'm' else if c = 'N' then 'n' else if c = 'O' then 'o'
  else if c = 'P' then 'p' else if c = 'Q' then 'q' else if c = 'R' then 'r'
  else if c = 'S' then 's' else if c = 'T' then 't' else if c = 'U' then 'u'
  else if c = 'V' then 'v' else if c = 'W' then 'w' else if c = 'X' then 'x'
  else if c = 'Y' then 'y' else if c = 'Z' then 'z' else c

/-- Model of Python `s.lower()` (ASCII). -/
def lowerStr (s : String) : String := ⟨s.data.map lowerChar⟩

/-- Model of Python `p.startswith(s)`: `strStarts p s` is true when `p` is a
prefix of `s`. -/
def strStarts (p s : String) : Bool := p.data.isPrefixOf s.data

/-- `re.search` semantics: does the pattern match at some suffix? -/
def anySuffix (p : List Char → Bool) : List Char → Bool
  | [] => p []
  | c :: rest => p (c :: rest) || anySuffix p rest

/-- Substring test on character lists. -/
def hasSubstr (pat : List Char) (l : List Char) : Bool :=
  anySuffix (fun t => pat.isPrefixOf t) l

/-- Model of Python `p in s` (substring test). -/
def strHasSubstr (p s : String) : Bool := hasSubstr p.data s.data

/-- Model of Python `s.lower().endswith(".pdb")`. -/
def endsWithPdb (s : String) : Bool :=
  List.isSuffixOf ['.', 'p', 'd', 'b'] (s.data.map lowerChar)

/-- Worker for `removeOcc`, structurally recursive on a fuel bound (the
fuel is always at least the list length, so the `0, l` line is not hit
with a non-empty list). -/
def removeOccAux (pat : List Char) : Nat → List Char → List Char
  | _, [] => []
  | 0, l => l
  | fuel + 1, c :: rest =>
    if !pat.isEmpty && pat.isPrefixOf (c :: rest) then
      removeOccAux pat fuel (List.drop (pat.length - 1) rest)
    else
      c :: removeOccAux pat fuel rest

/-- Model of Python `s.replace(pat, "")` on character lists: remove every
(non-overlapping, left-to-right) occurrence of `pat`. -/
def removeOcc (pat l : List Char) : List Char := removeOccAux pat l.length l

/-- Model of Python `s.replace(pat, "")` on strings. -/
def pyReplaceDel (pat s : String) : String := ⟨removeOcc pat.data s.data⟩

/-- Split before/after the first occurrence of `sep` (the occurrence itself
is dropped); if `sep` does not occur the whole list is the first component. -/
def splitFirstOn (sep : Char) : List Char → List Char × List Char
  | [] => ([], [])
  | c :: rest =>
    if c = sep then ([], rest)
    else
      let p := splitFirstOn sep rest
      (c :: p.1, p.2)

/-- Model of Python `s.split(sep, 1)` for a separator known to occur. -/
def splitEq (s : String) : String × String :=
  let p := splitFirstOn '=' s.data
  (⟨p.1⟩, ⟨p.2⟩)

/-! ## Dangerous-pattern matchers

Model of the regular expressions in
`CommandSecurityValidator.DANGEROUS_PATTERNS` (`security.py`, lines 15-30),
matched with `re.search(pattern, arg, re.IGNORECASE)`.  Each matcher takes
the lower-cased character list of the argument. -/

/-- Characters of the class in the first pattern: shell metacharacters. -/
def isShellMeta (c : Char) : Bool :=
  c == ';' || c == '&' || c == '|' || c == Char.ofNat 96 || c == '$' ||
  c == '(' || c == ')' || c == Char.ofNat 123 || c == Char.ofNat 125 ||
  c == '[' || c == ']' || c == '<' || c == '>'

/-- Python regex class code 92-115 (backslash-s): ASCII whitespace. -/
def isWs (c : Char) : Bool :=
  c == ' ' || c == Char.ofNat 9 || c == Char.ofNat 10 || c == Char.ofNat 13 ||
  c == Char.ofNat 11 || c == Char.ofNat 12

/-- Python regex word character (ASCII): letters, digits, underscore. -/
def isWordChar (c : Char) : Bool := c.isAlphanum || c == '_'

/-- Match `p` after zero or more whitespace characters. -/
def wsThenStar (p : List Char → Bool) : List Char → Bool
  | [] => p []
  | c :: rest => p (c :: rest) || (isWs c && wsThenStar p rest)

/-- Match `p` after one or more whitespace characters. -/
def wsThenPlus (p : List Char → Bool) : List Char → Bool
  | [] => false
  | c :: rest => isWs c && wsThenStar p rest

def patMeta (l : List Char) : Bool := l.any isShellMeta

def patDotDot (l : List Char) : Bool := hasSubstr ['.', '.'] l

def patBinDir (l : List Char) : Bool := hasSubstr ['/', 'b', 'i', 'n', '/'] l

def patUsrDir (l : List Char) : Bool := hasSubstr ['/', 'u', 's', 'r', '/'] l

def patSudo (l : List Char) : Bool := hasSubstr ['s', 'u', 'd', 'o'] l

def patChmod (l : List Char) : Bool := hasSubstr ['c', 'h', 'm', 'o', 'd'] l

def patRmRf (l : List Char) : Bool :=
  anySuffix (fun t =>
    match t with
    | 'r' :: 'm' :: rest => wsThenPlus (fun u => List.isPrefixOf ['-', 'r', 'f'] u) rest
    | _ => false) l

def patRootRedir (l : List Char) : Bool :=
  anySuffix (fun t =>
    match t with
    | '>' :: rest =>
      wsThenStar (fun u => match u with | '/' :: _ => true | _ => false) rest
    | _ => false) l

def patPipeWord (l : List Char) : Bool :=
  anySuffix (fun t =>
    match t with
    | '|' :: rest =>
      wsThenStar (fun u => match u with | c :: _ => isWordChar c | [] => false) rest
    | _ => false) l

def patAndAnd (l : List Char) : Bool := hasSubstr ['&', '&'] l

def patOrOr (l : List Char) : Bool := hasSubstr ['|', '|'] l

def patNc (l : List Char) : Bool :=
  anySuffix (fun t => match t with | 'n' :: 'c' :: c :: _ => isWs c | _ => false) l

def patWget (l : List Char) : Bool :=
  anySuffix (fun t =>
    match t with | 'w' :: 'g' :: 'e' :: 't' :: c :: _ => isWs c | _ => false) l

def patCurl (l : List Char) : Bool :=
  anySuffix (fun t =>
    match t with | 'c' :: 'u' :: 'r' :: 'l' :: c :: _ => isWs c | _ => false) l

/-- The fixed ordered pattern list `DANGEROUS_PATTERNS`. -/
def DANGEROUS_PATTERNS : List (List Char → Bool) :=
  [patMeta, patDotDot, patBinDir, patUsrDir, patSudo, patChmod, patRmRf,
   patRootRedir, patPipeWord, patAndAnd, patOrOr, patNc, patWget, patCurl]

/-- An argument matches some dangerous pattern (case-insensitively). -/
def isDangerous (s : String) : Bool :=
  DANGEROUS_PATTERNS.any (fun p => p (s.data.map lowerChar))

/-! ## Command registry (`valid_commands.py`, class `CommandValidator`) -/

def VALID_COMMANDS : List String :=
  ["ComputeBinding", "ComputeEvolutionScore", "ComputeResEnergy",
   "ComputeRotEnergy", "ComputeStability", "ComputeResPairEnergy",
   "ProteinDesign", "AddPolarHydrogen", "BuildMutant", "CalcPhiPsi",
   "CalcResMinRMSD", "CheckClash0", "CheckClash1", "CheckClash2",
   "CheckResInRotLib", "CompareProtSideChain", "FindCoreRes",
   "FindIntermediateRes", "FindInterfaceRes", "FindSurfaceRes",
   "Minimize", "OptimizeHydrogen", "RepairStructure",
   "ShowResComposition", "PredPhiPsi", "PredSS", "PredSA",
   "CalcResBfactor", "OptimizeWeight", "MakeLigParamAndTopo",
   "MakeLigPoses", "AnalyzeLigPoses", "ScreenLigPoses",
   "WriteFirstLigConfAsMol2", "SelectResWithin"]

def VALID_ARGUMENTS : List String :=
  ["pdb", "prefix", "wbind", "seq", "resfile", "resi", "resi_pair",
   "excl_resi", "rotlib", "design_chains", "ntraj", "mutant_file",
   "pdb2", "ncut_cb_core", "ppi_shell1", "ppi_shell2", "ncut_cb_surf",
   "wprof", "lig_param", "lig_topo", "init_3atoms", "lig_placing",
   "read_lig_poses", "scrn_by_orien", "scrn_by_vdw_pctl", "scrn_by_rmsd",
   "mol2", "within_residues", "within_range"]

def VALID_FLAGS : List String :=
  ["physics", "monomer", "evolution", "evo_all_terms", "seed_from_nat_seq",
   "ppint", "interface_only", "excl_cys_rots", "no_hydrogen",
   "wildtype_only", "debug", "keep_water", "dry_run", "enzyme", "protlig"]

/-- `CommandValidator.is_valid_command`. -/
def is_valid_command (command : String) : Bool := VALID_COMMANDS.contains command

/-- `CommandValidator.is_valid_argument`. -/
def is_valid_argument (arg : String) : Bool := VALID_ARGUMENTS.contains arg

/-- `CommandValidator.is_valid_flag`. -/
def is_valid_flag (flag : String) : Bool := VALID_FLAGS.contains flag

/-- `CMD_BASE` in `valid_commands.py`. -/
def CMD_BASE : String := "--command="

/-- `format_argument` in `valid_commands.py`. -/
def format_argument (argument value : String) : String :=
  "--" ++ argument ++ "=" ++ value

/-- `format_flag` in `valid_commands.py`. -/
def format_flag (flag : String) : String := "--" ++ flag

/-- `get_command_base` in `valid_commands.py`. -/
def get_command_base (command : String) : String := CMD_BASE ++ command

/-! ## POSIX path model (`pathlib.PurePosixPath` essentials)

Used by `_validate_pdb_path` (`Path(pdb_path)`) and by the Docker path
translation.  A parsed path is a root (`""`, `"/"` or `"//"` — pathlib
keeps exactly two leading slashes, collapses any other run) together with
the non-empty, non-`"."` components. -/

structure PurePath where
  root : String
  comps : List String
deriving DecidableEq, Repr

/-- Number of leading slashes. -/
def countLeadSlash : List Char → Nat
  | '/' :: rest => countLeadSlash rest + 1
  | _ => 0

/-- Split a character list on `'/'` into (possibly empty) segments. -/
def splitOnSlash : List Char → List (List Char)
  | [] => [[]]
  | '/' :: rest => [] :: splitOnSlash rest
  | c :: rest =>
    match splitOnSlash rest with
    | seg :: segs => (c :: seg) :: segs
    | [] => [[c]]

/-- Model of `pathlib.PurePosixPath(s)`: parse and normalize. -/
def parsePath (s : String) : PurePath :=
  let n := countLeadSlash s.data
  let root := if n == 0 then "" else if n == 2 then "//" else "/"
  let comps := (splitOnSlash s.data).filterMap
    (fun seg => if seg.isEmpty || seg == ['.'] then none else some (⟨seg⟩ : String))
  ⟨root, comps⟩

/-- Join components with `'/'`. -/
def joinSlash : List String → String
  | [] => ""
  | [x] => x
  | x :: rest => x ++ "/" ++ joinSlash rest

/-- Model of `str(p)` for a parsed path. -/
def pathStr (p : PurePath) : String :=
  if p.root == "" && p.comps.isEmpty then "." else p.root ++ joinSlash p.comps

/-- Model of `p.parts`: the root (when present) followed by the components. -/
def allParts (p : PurePath) : List String :=
  if p.root == "" then p.comps else p.root :: p.comps

/-- Model of `p.is_absolute()` on POSIX. -/
def PurePath.is_absolute (p : PurePath) : Bool := !(p.root == "")

/-- Model of `self.relative_to(other)` (classic semantics): the parts of
`other` must be a prefix of the parts of `self`, else `ValueError`; the
result is the list of remaining parts. -/
def relative_to (self other : PurePath) : Except Unit (List String) :=
  if (allParts other).isEmpty then
    if self.is_absolute then .error () else .ok (allParts self)
  else if (allParts other).isPrefixOf (allParts self) then
    .ok ((allParts self).drop (allParts other).length)
  else .error ()

/-- Model of `p.as_posix()` for a relative path given by its parts. -/
def posixJoin (parts : List String) : String :=
  if parts.isEmpty then "." else joinSlash parts

/-! ## Security validator (`security.py`, class `CommandSecurityValidator`)

The single Python exception class `SecurityError` carries a message; the
distinct raise sites are modelled as distinct error kinds. -/

inductive SecurityError where
  | emptyCommand
  | badFirstArgument
  | invalidCommand (name : String)
  | dangerousPattern (arg : String)
  | unknownArgument (key : String)
  | unknownFlag (flag : String)
  | unrecognizedFormat (arg : String)
  | pdbTraversal
  | pdbBadExtension
  | pdbTooLong
  | pdbNullByte
  | emptyFilename
  | valueErrorUnpack
deriving DecidableEq, Repr

/-- `CommandSecurityValidator._validate_pdb_path`. -/
def validate_pdb_path (pdb_path : String) : Except SecurityError Unit :=
  let path := parsePath pdb_path
  if strHasSubstr ".." (pathStr path) then .error .pdbTraversal
  else if !(endsWithPdb pdb_path) then .error .pdbBadExtension
  else if pdb_path.data.length > 1000 then .error .pdbTooLong
  else if pdb_path.data.contains (Char.ofNat 0) then .error .pdbNullByte
  else .ok ()

/-- `CommandSecurityValidator._validate_argument_safety` (one argument):
raises `SecurityError` when some dangerous pattern matches. -/
def validate_argument_safety (arg : String) : Except SecurityError Unit :=
  if isDangerous arg then .error (.dangerousPattern arg) else .ok ()

/-- The `for arg in command_args: cls._validate_argument_safety(arg)` loop. -/
def validate_all_safety : List String → Except SecurityError Unit
  | [] => .ok ()
  | arg :: rest =>
    match validate_argument_safety arg with
    | .error e => .error e
    | .ok _ => validate_all_safety rest

/-- Body of the loop in `CommandSecurityValidator._validate_argument_structure`. -/
def validateArgToken (arg : String) : Except SecurityError Unit :=
  if arg.data.contains '=' then
    let kv := splitEq arg
    let key := pyReplaceDel "--" kv.1
    if !(is_valid_argument key) then .error (.unknownArgument key)
    else if key == "pdb" && !(kv.2 == "") then validate_pdb_path kv.2
    else .ok ()
  else if strStarts "--" arg then
    let flag := pyReplaceDel "--" arg
    if !(is_valid_flag flag) then .error (.unknownFlag flag)
    else .ok ()
  else .error (.unrecognizedFormat arg)

/-- `CommandSecurityValidator._validate_argument_structure`. -/
def validate_argument_structure : List String → Except SecurityError Unit
  | [] => .ok ()
  | arg :: rest =>
    match validateArgToken arg with
    | .error e => .error e
    | .ok _ => validate_argument_structure rest

/-- `CommandSecurityValidator.validate_command_structure`. -/
def validate_command_structure (command_args : List String) : Except SecurityError Bool :=
  match command_args with
  | [] => .error .emptyCommand
  | first_arg :: rest =>
    if !(strStarts "--command=" first_arg) then .error .badFirstArgument
    else
      let command_name := pyReplaceDel "--command=" first_arg
      if !(is_valid_command command_name) then .error (.invalidCommand command_name)
      else
        match validate_all_safety (first_arg :: rest) with
        | .error e => .error e
        | .ok _ =>
          match validate_argument_structure rest with
          | .error e => .error e
          | .ok _ => .ok true

/-- Characters kept unchanged by the sanitizing step of `validate_filename`
(the class `[a-zA-Z0-9._-]`). -/
def isAllowedChar (c : Char) : Bool :=
  ('a' ≤ c && c ≤ 'z') || ('A' ≤ c && c ≤ 'Z') || ('0' ≤ c && c ≤ '9') ||
  c == '.' || c == '_' || c == '-'

/-- One character of `re.sub(r'[^a-zA-Z0-9._-]', '_', filename)`. -/
def sanitizeChar (c : Char) : Char := if isAllowedChar c then c else '_'

/-- Split a string before/after its last `'.'` (Python `s.rsplit('.', 1)`);
`none` when there is no dot (where Python unpacking would raise). -/
def rsplitDot (s : String) : Option (String × String) :=
  if s.data.contains '.' then
    let r := s.data.reverse
    some (⟨((r.dropWhile (fun c => !(c == '.'))).drop 1).reverse⟩,
          ⟨(r.takeWhile (fun c => !(c == '.'))).reverse⟩)
  else none

/-- The local `sanitized` of `validate_filename`:
`re.sub(r'[^a-zA-Z0-9._-]', '_', filename)`. -/
def sanitizedOf (filename : String) : String := ⟨filename.data.map sanitizeChar⟩

/-- The local `sanitized` after the extension-forcing step of
`validate_filename`. -/
def sanitized2Of (filename : String) : String :=
  if endsWithPdb (sanitizedOf filename) then sanitizedOf filename
  else sanitizedOf filename ++ ".pdb"

/-- `CommandSecurityValidator.validate_filename`. -/
def validate_filename (filename : String) : Except SecurityError String :=
  if filename == "" then .error .emptyFilename
  else
    match validate_argument_safety filename with
    | .error e => .error e
    | .ok _ =>
      if (sanitized2Of filename).data.length > 100 then
        match rsplitDot (sanitized2Of filename) with
        | some (nm, ext) => .ok (⟨nm.data.take 95⟩ ++ "." ++ ext)
        | none => .error .valueErrorUnpack
      else .ok (sanitized2Of filename)

/-! ## Command builder (`valid_commands.py`, `build_command_from_dict`)

The Python argument dictionary is modelled as an association list in
insertion order; Python truthiness of a string value is `value ≠ ""`.
`settings.USE_DOCKER` and `settings.PDBENGINE_BINARY_PATH` become explicit
parameters. -/

/-- The `for key, value in arguments.items()` append loop. -/
def addArguments : List String → List (String × String) → List String
  | acc, [] => acc
  | acc, kv :: rest =>
    if is_valid_argument kv.1 && !(kv.2 == "") then
      addArguments (acc ++ [format_argument kv.1 kv.2]) rest
    else addArguments acc rest

/-- The `for flag in flags` append loop. -/
def addFlags : List String → List String → List String
  | acc, [] => acc
  | acc, flag :: rest =>
    if is_valid_flag flag then addFlags (acc ++ [format_flag flag]) rest
    else addFlags acc rest

/-- `build_command_from_dict`. -/
def build_command_from_dict (use_docker : Bool) (binary_path : String)
    (command : String) (arguments : List (String × String))
    (flags : List String) : List String :=
  let cmd_args :=
    if use_docker then [get_command_base command]
    else [binary_path, get_command_base command]
  addFlags (addArguments cmd_args arguments) flags

/-! ## Execution backends (`engine_executor.py`, `docker_executor.py`)

`subprocess.run` and wall-clock measurement are abstracted by a
`RunOutcome` (what the `try` block observes) and an `elapsed` parameter
(the measured `time.time() - start_time`, modelled as a natural number).
The executors are then total functions producing the result record, which
models "never raises". -/

/-- What happens inside the `try` block of an executor. -/
inductive RunOutcome where
  | completed (returncode : Int) (out err : String)
  | timedOut
  | securityExc (msg : String)
  | otherExc (msg : String)
deriving DecidableEq, Repr

/-- `RunOutcome.completed` discriminator: the run finished without an
exception (spec reading: `failureReason = none`). -/
def RunOutcome.isCompleted : RunOutcome → Bool
  | .completed _ _ _ => true
  | _ => false

/-- `PDBEngineExecutionResult` (`models/models2.py`). -/
structure PDBEngineExecutionResult where
  success : Bool
  stdout : String
  stderr : String
  return_code : Int
  execution_time : Nat
deriving DecidableEq, Repr

/-- `PDBEngineExecutor._execute_local` (`engine_executor.py`, lines 44-103). -/
def execute_local (outcome : RunOutcome) (elapsed : Nat) (timeout_s : Nat) :
    PDBEngineExecutionResult :=
  match outcome with
  | .completed rc out err =>
    { success := rc == 0, stdout := out, stderr := err,
      return_code := rc, execution_time := elapsed }
  | .timedOut =>
    { success := false, stdout := "",
      stderr := "Process exceeded timeout of " ++ toString timeout_s ++ " seconds",
      return_code := -1, execution_time := elapsed }
  | .securityExc m =>
    { success := false, stdout := "", stderr := "Security violation: " ++ m,
      return_code := -2, execution_time := elapsed }
  | .otherExc m =>
    { success := false, stdout := "", stderr := "Execution error: " ++ m,
      return_code := -3, execution_time := elapsed }

/-- `DockerExecutor.execute` (`docker_executor.py`, lines 18-85); its
`except Exception` catches `SecurityError` and every other exception alike. -/
def docker_execute (outcome : RunOutcome) (elapsed : Nat) (timeout_s : Nat) :
    PDBEngineExecutionResult :=
  match outcome with
  | .completed rc out err =>
    { success := rc == 0, stdout := out, stderr := err,
      return_code := rc, execution_time := elapsed }
  | .timedOut =>
    { success := false, stdout := "",
      stderr := "Process exceeded timeout of " ++ toString timeout_s ++ " seconds",
      return_code := -1, execution_time := elapsed }
  | .securityExc m =>
    { success := false, stdout := "", stderr := "Docker execution error: " ++ m,
      return_code := -2, execution_time := elapsed }
  | .otherExc m =>
    { success := false, stdout := "", stderr := "Docker execution error: " ++ m,
      return_code := -2, execution_time := elapsed }

/-- `PDBEngineExecutor.execute`: dispatch on `settings.USE_DOCKER`. -/
def executor_execute (use_docker : Bool) (outcome : RunOutcome)
    (elapsed : Nat) (timeout_s : Nat) : PDBEngineExecutionResult :=
  if use_docker then docker_execute outcome elapsed timeout_s
  else execute_local outcome elapsed timeout_s

/-! ## Docker path translation (`DockerExecutor._convert_paths_to_container`)

In the `key=value` branch the call to `relative_to` is not guarded by a
`try`, so its `ValueError` propagates (error value of the `Except`); in the
standalone branch `except (ValueError, OSError)` keeps the original token. -/

/-- Translation of one argument token. -/
def convert_arg (host_workdir : PurePath) (container_workdir : String)
    (arg : String) : Except Unit String :=
  let host_workdir_str := lowerStr (pathStr host_workdir)
  if arg.data.contains '=' then
    let kv := splitEq arg
    let value_path := parsePath kv.2
    if value_path.is_absolute &&
        strStarts host_workdir_str (lowerStr (pathStr value_path)) then
      match relative_to value_path host_workdir with
      | .ok rel => .ok (kv.1 ++ "=" ++ container_workdir ++ "/" ++ posixJoin rel)
      | .error _ => .error ()
    else .ok arg
  else
    let arg_path := parsePath arg
    if arg_path.is_absolute &&
        strStarts host_workdir_str (lowerStr (pathStr arg_path)) then
      match relative_to arg_path host_workdir with
      | .ok rel => .ok (container_workdir ++ "/" ++ posixJoin rel)
      | .error _ => .ok arg
    else .ok arg

/-- `DockerExecutor._convert_paths_to_container`: the loop over the command. -/
def convert_paths_to_container (command : List String)
    (host_workdir : PurePath) (container_workdir : String) :
    Except Unit (List String) :=
  match command with
  | [] => .ok []
  | arg :: rest =>
    match convert_arg host_workdir container_workdir arg with
    | .error e => .error e
    | .ok c =>
      match convert_paths_to_container rest host_workdir container_workdir with
      | .error e => .error e
      | .ok cs => .ok (c :: cs)

/-! ## Statement helpers (discriminators used by theorem statements) -/

instance instDecEqExceptLocal {ε α : Type} [DecidableEq ε] [DecidableEq α] :
    DecidableEq (Except ε α)
  | .error a, .error b =>
    if h : a = b then .isTrue (congrArg _ h)
    else .isFalse (fun hh => h (Except.error.inj hh))
  | .error _, .ok _ => .isFalse Except.noConfusion
  | .ok _, .error _ => .isFalse Except.noConfusion
  | .ok a, .ok b =>
    if h : a = b then .isTrue (congrArg _ h)
    else .isFalse (fun hh => h (Except.ok.inj hh))

/-- Is the validator outcome a `DangerousPattern` failure? -/
def isDangerousPatErr : Except SecurityError Bool → Bool
  | .error (.dangerousPattern _) => true
  | _ => false

/-- Checker for the sanitized-filename contract: the call returned a name
built only from `[a-zA-Z0-9._-]`, ending (case-insensitively) in `.pdb`,
of length at most 100. -/
def goodName (r : Except SecurityError String) : Bool :=
  match r with
  | .ok out =>
    out.data.all isAllowedChar && endsWithPdb out && decide (out.data.length ≤ 100)
  | .error _ => false

/-! # Theorems -/

/-! ## Builder lemmas -/

lemma addArguments_spec (arguments : List (String × String)) (acc : List String) :
    addArguments acc arguments =
      acc ++ (arguments.filter
          (fun kv => is_valid_argument kv.1 && !(kv.2 == ""))).map
        (fun kv => format_argument kv.1 kv.2) := by
  induction arguments generalizing acc with
  | nil => simp [addArguments]
  | cons kv rest ih =>
    by_cases h : (is_valid_argument kv.1 && !(kv.2 == "")) = true
    · simp [addArguments, h, ih, List.filter_cons]
    · simp [addArguments, h, ih, List.filter_cons]

lemma addFlags_spec (flags : List String) (acc : List String) :
    addFlags acc flags =
      acc ++ (flags.filter is_valid_flag).map format_flag := by
  induction flags generalizing acc with
  | nil => simp [addFlags]
  | cons f rest ih =>
    by_cases h : is_valid_flag f = true
    · simp [addFlags, h, ih, List.filter_cons]
    · simp [addFlags, h, ih, List.filter_cons]

/-- Claim C10: the builder omits any argument entry whose value is falsy
(modelled: the empty string) even when its key is Registry-valid; the
output contains a `--key=value` token exactly for the entries with a
Registry-valid key and a truthy value (and a `--flag` token exactly for
the Registry-valid flags), after the mode-dependent base. -/
theorem c10_builder_tokens (use_docker : Bool) (binary_path command : String)
    (arguments : List (String × String)) (flags : List String) :
    build_command_from_dict use_docker binary_path command arguments flags =
      (if use_docker then [get_command_base command]
       else [binary_path, get_command_base command])
      ++ (arguments.filter
            (fun kv => is_valid_argument kv.1 && !(kv.2 == ""))).map
          (fun kv => format_argument kv.1 kv.2)
      ++ (flags.filter is_valid_flag).map format_flag := by
  simp [build_command_from_dict, addArguments_spec, addFlags_spec, List.append_assoc]

/-- Claim C8: the builder never fails and silently omits Registry-unknown
argument keys and flag names (dropping them changes nothing); in local
mode the output is the binary path consed onto the container-mode output,
and in container mode element 0 is the `--command=<Name>` selector. -/
theorem c8_builder_shape (use_docker : Bool) (binary_path command : String)
    (arguments : List (String × String)) (flags : List String) :
    build_command_from_dict false binary_path command arguments flags =
      binary_path :: build_command_from_dict true binary_path command arguments flags
    ∧ (build_command_from_dict true binary_path command arguments flags).head? =
        some ("--command=" ++ command)
    ∧ build_command_from_dict use_docker binary_path command
        (arguments.filter (fun kv => is_valid_argument kv.1))
        (flags.filter is_valid_flag) =
      build_command_from_dict use_docker binary_path command arguments flags := by
  refine ⟨?_, ?_, ?_⟩
  · simp [build_command_from_dict, addArguments_spec, addFlags_spec]
  · simp [build_command_from_dict, addArguments_spec, addFlags_spec, get_command_base,
      CMD_BASE]
  · simp only [build_command_from_dict, addArguments_spec, addFlags_spec,
      List.filter_filter]
    congr 2
    · exact congrArg _ (List.filter_congr
        (fun kv _ => by cases hv : is_valid_argument kv.1 <;> simp [hv]))
    · apply List.filter_congr
      intro f _
      cases hv : is_valid_flag f <;> simp [hv]

/-! ## Execution-backend theorems -/

/-- Claim C4: every result produced by either backend, on every path,
satisfies `success = true` exactly when the exit code is 0 and no failure
occurred (the run completed normally), and has its elapsed-time field
populated with the measured time. -/
theorem c4_result_invariant (use_docker : Bool) (o : RunOutcome) (e t : Nat) :
    ((executor_execute use_docker o e t).success = true ↔
      ((executor_execute use_docker o e t).return_code = 0 ∧ o.isCompleted = true))
    ∧ (executor_execute use_docker o e t).execution_time = e := by
  cases use_docker <;> cases o <;>
    simp [executor_execute, execute_local, docker_execute, RunOutcome.isCompleted]

/-- Claim C3 (amended): both backends are total functions into
`PDBEngineExecutionResult` (never raise); a timeout yields
`success = false`, exit code `-1` and the elapsed time spent; a
non-timeout failure yields exit code `-3` in the local backend but `-2`
in the containerized backend. -/
theorem c3_failure_encoding (m : String) (e t : Nat) :
    ((execute_local .timedOut e t).success = false
      ∧ (execute_local .timedOut e t).return_code = -1
      ∧ (execute_local .timedOut e t).execution_time = e)
    ∧ ((execute_local (.otherExc m) e t).success = false
      ∧ (execute_local (.otherExc m) e t).return_code = -3
      ∧ (execute_local (.otherExc m) e t).execution_time = e)
    ∧ ((docker_execute .timedOut e t).success = false
      ∧ (docker_execute .timedOut e t).return_code = -1
      ∧ (docker_execute .timedOut e t).execution_time = e)
    ∧ ((docker_execute (.otherExc m) e t).success = false
      ∧ (docker_execute (.otherExc m) e t).return_code = -2
      ∧ (docker_execute (.otherExc m) e t).execution_time = e) := by
  simp [execute_local, docker_execute]

/-- Claim C3 counterexample: a non-timeout launch failure in the
containerized backend returns exit code `-2`, not the claimed `-3`. -/
theorem c3_counter :
    (docker_execute (.otherExc "No such file or directory: docker") 2 600).return_code = -2
    ∧ ¬((docker_execute (.otherExc "No such file or directory: docker") 2 600).return_code
        = -3) := by
  constructor
  · rfl
  · intro h
    simp [docker_execute] at h

/-! ## Dangerous-pattern scan lemmas and Claim C1 -/

lemma validate_all_safety_ok {l : List String}
    (h : ∀ a ∈ l, isDangerous a = false) : validate_all_safety l = .ok () := by
  induction l with
  | nil => rfl
  | cons a rest ih =>
    have ha := h a (List.mem_cons_self a rest)
    have hrest := ih (fun b hb => h b (List.mem_cons_of_mem a hb))
    simp [validate_all_safety, validate_argument_safety, ha, hrest]

lemma validate_all_safety_err {l : List String} (h : l.any isDangerous = true) :
    ∃ d, validate_all_safety l = .error (.dangerousPattern d) ∧ isDangerous d = true := by
  induction l with
  | nil => simp at h
  | cons a rest ih =>
    by_cases ha : isDangerous a = true
    · exact ⟨a, by simp [validate_all_safety, validate_argument_safety, ha], ha⟩
    · have ha' : isDangerous a = false := by
        cases hb : isDangerous a
        · rfl
        · exact absurd hb ha
      have h' : rest.any isDangerous = true := by
        simpa [List.any_cons, ha'] using h
      obtain ⟨d, hd, hdd⟩ := ih h'
      exact ⟨d, by simp [validate_all_safety, validate_argument_safety, ha', hd], hdd⟩

/-- Claim C1 (amended): an argument vector containing a dangerous token in
any element never validates; the failure kind is `DangerousPattern`
whenever element 0 is a well-formed `--command=` selector naming a
Registry-valid command (otherwise an earlier structural check fails
first with a different kind). -/
theorem c1_dangerous_rejected (a0 : String) (rest : List String)
    (hdanger : (a0 :: rest).any isDangerous = true) :
    validate_command_structure (a0 :: rest) ≠ .ok true
    ∧ (strStarts "--command=" a0 = true →
       is_valid_command (pyReplaceDel "--command=" a0) = true →
       isDangerousPatErr (validate_command_structure (a0 :: rest)) = true) := by
  by_cases h0 : strStarts "--command=" a0 = true
  · by_cases h1 : is_valid_command (pyReplaceDel "--command=" a0) = true
    · obtain ⟨d, hd, _⟩ := validate_all_safety_err hdanger
      refine ⟨?_, fun _ _ => ?_⟩ <;>
        simp [validate_command_structure, h0, h1, hd, isDangerousPatErr]
    · refine ⟨?_, fun _ h1' => absurd h1' h1⟩
      simp [validate_command_structure, h0, h1]
  · refine ⟨?_, fun h0' _ => absurd h0' h0⟩
    simp [validate_command_structure, h0]

/-- Witness for C1: a concrete well-formed vector with a dangerous second
element fails with kind `DangerousPattern`. -/
theorem c1_dangerous_rejected_witness :
    ((["--command=ProteinDesign", "--pdb=a;b.pdb"] : List String).any isDangerous = true)
    ∧ isDangerousPatErr
        (validate_command_structure ["--command=ProteinDesign", "--pdb=a;b.pdb"]) = true :=
  ⟨by decide,
   (c1_dangerous_rejected "--command=ProteinDesign" ["--pdb=a;b.pdb"]
      (by decide)).2 (by decide) (by decide)⟩

/-- Counterexample for C1 as stated: `["--command=.."]` contains the
dangerous token `..`, yet validation fails with `InvalidCommand`, not
`DangerousPattern` (the selector is checked before the pattern scan). -/
theorem c1_counter :
    validate_command_structure ["--command=.."] = .error (.invalidCommand "..")
    ∧ isDangerous "--command=.." = true
    ∧ isDangerousPatErr (.error (.invalidCommand "..")) = false := by decide

/-! ## String and registry facts used by the round-trip proof -/

lemma str_data_append (a b : String) : (a ++ b).data = a.data ++ b.data := rfl

lemma isPrefixOf_true_iff {α : Type} [BEq α] [LawfulBEq α] {l₁ l₂ : List α} :
    l₁.isPrefixOf l₂ = true ↔ l₁ <+: l₂ := List.isPrefixOf_iff_prefix

lemma cmd_facts : VALID_COMMANDS.all
    (fun c => (pyReplaceDel "--command=" ("--command=" ++ c) == c)
      && !(isDangerous ("--command=" ++ c))
      && strStarts "--command=" ("--command=" ++ c)) = true := by decide

lemma arg_facts : VALID_ARGUMENTS.all
    (fun k => !(k.data.contains '=')
      && (pyReplaceDel "--" ("--" ++ k) == k)) = true := by decide

lemma flag_facts : VALID_FLAGS.all
    (fun f => !(("--" ++ f).data.contains '=')
      && strStarts "--" ("--" ++ f)
      && (pyReplaceDel "--" ("--" ++ f) == f)
      && !(isDangerous ("--" ++ f))) = true := by decide

lemma contains_iff_mem {l : List Char} {c : Char} : l.contains c = true ↔ c ∈ l := by
  simp [List.contains, List.elem_iff]

lemma mem_of_contains {l : List String} {s : String} (h : l.contains s = true) : s ∈ l := by
  simpa [List.contains, List.elem_iff] using h

lemma valid_command_props {c : String} (h : is_valid_command c = true) :
    pyReplaceDel "--command=" ("--command=" ++ c) = c
    ∧ isDangerous ("--command=" ++ c) = false
    ∧ strStarts "--command=" ("--command=" ++ c) = true := by
  have hm : c ∈ VALID_COMMANDS := mem_of_contains h
  have hp := List.all_eq_true.mp cmd_facts c hm
  simp only [Bool.and_eq_true, beq_iff_eq, Bool.not_eq_true'] at hp
  exact ⟨hp.1.1, hp.1.2, hp.2⟩

lemma valid_argument_props {k : String} (h : is_valid_argument k = true) :
    k.data.contains '=' = false
    ∧ pyReplaceDel "--" ("--" ++ k) = k := by
  have hm : k ∈ VALID_ARGUMENTS := mem_of_contains h
  have hp := List.all_eq_true.mp arg_facts k hm
  simp only [Bool.and_eq_true, beq_iff_eq, Bool.not_eq_true'] at hp
  exact hp

lemma valid_flag_props {f : String} (h : is_valid_flag f = true) :
    ("--" ++ f).data.contains '=' = false
    ∧ strStarts "--" ("--" ++ f) = true
    ∧ pyReplaceDel "--" ("--" ++ f) = f
    ∧ isDangerous ("--" ++ f) = false := by
  have hm : f ∈ VALID_FLAGS := mem_of_contains h
  have hp := List.all_eq_true.mp flag_facts f hm
  simp only [Bool.and_eq_true, beq_iff_eq, Bool.not_eq_true'] at hp
  exact ⟨hp.1.1.1, hp.1.1.2, hp.1.2, hp.2⟩

/-! ## Structure-check lemmas -/

lemma splitFirstOn_append {a b : List Char} (h : a.contains '=' = false) :
    splitFirstOn '=' (a ++ '=' :: b) = (a, b) := by
  induction a with
  | nil => simp [splitFirstOn]
  | cons c a' ih =>
    rw [List.contains_cons] at h
    have hc : ¬(c = '=') := by
      intro hh
      subst hh
      simp at h
    have ha' : a'.contains '=' = false := by
      rcases Bool.or_eq_false_iff.mp h with ⟨_, h2⟩
      exact h2
    simp [splitFirstOn, hc, ih ha']

lemma format_argument_data (k v : String) :
    (format_argument k v).data = ('-' :: '-' :: k.data) ++ '=' :: v.data := by
  simp [format_argument, str_data_append, List.append_assoc]

lemma splitEq_format_argument {k : String} (v : String)
    (hk : k.data.contains '=' = false) :
    splitEq (format_argument k v) = ("--" ++ k, v) := by
  have hne : '=' ∉ k.data := by
    intro hm
    have h1 := contains_iff_mem.mpr hm
    rw [hk] at h1
    exact Bool.false_ne_true h1
  have hnc : ('-' :: '-' :: k.data).contains '=' = false := by
    cases hcc : ('-' :: '-' :: k.data).contains '='
    · rfl
    · exfalso
      have hmm := contains_iff_mem.mp hcc
      simp at hmm
      exact hne hmm
  have hsplit := splitFirstOn_append (b := v.data) hnc
  simp only [splitEq, format_argument_data, hsplit]
  exact Prod.ext rfl rfl

lemma validateArgToken_arg_ok {k v : String} (hk : is_valid_argument k = true)
    (hpdb : k = "pdb" → v ≠ "" → validate_pdb_path v = Except.ok ()) :
    validateArgToken (format_argument k v) = .ok () := by
  obtain ⟨hkeq, hkrep⟩ := valid_argument_props hk
  have hc : (format_argument k v).data.contains '=' = true := by
    rw [format_argument_data]
    apply contains_iff_mem.mpr
    simp
  have hsE := splitEq_format_argument v hkeq
  simp only [validateArgToken, hc, if_true, hsE, hkrep, hk, Bool.not_true,
    Bool.false_eq_true, if_false]
  by_cases hkp : k = "pdb"
  · by_cases hv : v = ""
    · simp [hkp, hv]
    · have hveq : (v == "") = false := by
        simp [hv]
      simp [hkp, hveq, hpdb hkp hv]
  · have : (k == "pdb") = false := by simp [hkp]
    simp [this]

lemma validateArgToken_flag_ok {f : String} (hf : is_valid_flag f = true) :
    validateArgToken (format_flag f) = .ok () := by
  obtain ⟨hnc, hstart, hrep, _⟩ := valid_flag_props hf
  have hff : format_flag f = "--" ++ f := rfl
  rw [hff]
  simp only [validateArgToken, hnc, Bool.false_eq_true, if_false, hstart, if_true,
    hrep, hf, Bool.not_true]

lemma validate_argument_structure_ok {l : List String}
    (h : ∀ a ∈ l, validateArgToken a = .ok ()) :
    validate_argument_structure l = .ok () := by
  induction l with
  | nil => rfl
  | cons a rest ih =>
    have ha := h a (List.mem_cons_self a rest)
    have hrest := ih (fun b hb => h b (List.mem_cons_of_mem a hb))
    simp [validate_argument_structure, ha, hrest]

/-- Claim C2 (amended): in container mode, building from a Registry-valid
command with argument entries whose Registry-valid, truthy-valued tokens
contain no dangerous pattern (and whose `pdb` values pass path
validation) produces a vector the validator accepts; in local mode the
validator always rejects the builder output, because element 0 is the
binary path, not a `--command=` selector. -/
theorem c2_roundtrip (command binary_path : String)
    (arguments : List (String × String)) (flags : List String)
    (hcmd : is_valid_command command = true)
    (hbin : strStarts "--command=" binary_path = false)
    (hvals : ∀ kv ∈ arguments, is_valid_argument kv.1 = true → kv.2 ≠ "" →
       isDangerous (format_argument kv.1 kv.2) = false
       ∧ (kv.1 = "pdb" → validate_pdb_path kv.2 = Except.ok ())) :
    validate_command_structure
        (build_command_from_dict true binary_path command arguments flags) =
      Except.ok true
    ∧ validate_command_structure
        (build_command_from_dict false binary_path command arguments flags) =
      Except.error .badFirstArgument := by
  obtain ⟨hrep, hsafe0, hstart0⟩ := valid_command_props hcmd
  have hg : get_command_base command = "--command=" ++ command := rfl
  have hb1 : build_command_from_dict true binary_path command arguments flags
      = ("--command=" ++ command) ::
        ((arguments.filter
            (fun kv => is_valid_argument kv.1 && !(kv.2 == ""))).map
          (fun kv => format_argument kv.1 kv.2)
         ++ (flags.filter is_valid_flag).map format_flag) := by
    simp [build_command_from_dict, addArguments_spec, addFlags_spec, hg]
  have hb0 : build_command_from_dict false binary_path command arguments flags
      = binary_path :: (("--command=" ++ command) ::
        ((arguments.filter
            (fun kv => is_valid_argument kv.1 && !(kv.2 == ""))).map
          (fun kv => format_argument kv.1 kv.2)
         ++ (flags.filter is_valid_flag).map format_flag)) := by
    simp [build_command_from_dict, addArguments_spec, addFlags_spec, hg]
  have hsafety : validate_all_safety (("--command=" ++ command) ::
      ((arguments.filter
          (fun kv => is_valid_argument kv.1 && !(kv.2 == ""))).map
        (fun kv => format_argument kv.1 kv.2)
       ++ (flags.filter is_valid_flag).map format_flag)) = .ok () := by
    apply validate_all_safety_ok
    intro a ha
    rcases List.mem_cons.mp ha with rfl | hmem
    · exact hsafe0
    · rcases List.mem_append.mp hmem with h1 | h2
      · obtain ⟨kv, hkvmem, rfl⟩ := List.mem_map.mp h1
        obtain ⟨hm, hcond⟩ := List.mem_filter.mp hkvmem
        rw [Bool.and_eq_true] at hcond
        have hne : kv.2 ≠ "" := by
          intro hh
          rw [hh] at hcond
          simp at hcond
        exact (hvals kv hm hcond.1 hne).1
      · obtain ⟨f, hfmem, rfl⟩ := List.mem_map.mp h2
        exact (valid_flag_props (List.mem_filter.mp hfmem).2).2.2.2
  have hstructure : validate_argument_structure
      ((arguments.filter
          (fun kv => is_valid_argument kv.1 && !(kv.2 == ""))).map
        (fun kv => format_argument kv.1 kv.2)
       ++ (flags.filter is_valid_flag).map format_flag) = .ok () := by
    apply validate_argument_structure_ok
    intro a ha
    rcases List.mem_append.mp ha with h1 | h2
    · obtain ⟨kv, hkvmem, rfl⟩ := List.mem_map.mp h1
      obtain ⟨hm, hcond⟩ := List.mem_filter.mp hkvmem
      rw [Bool.and_eq_true] at hcond
      have hne : kv.2 ≠ "" := by
        intro hh
        rw [hh] at hcond
        simp at hcond
      exact validateArgToken_arg_ok hcond.1
        (fun hp _ => (hvals kv hm hcond.1 hne).2 hp)
    · obtain ⟨f, hfmem, rfl⟩ := List.mem_map.mp h2
      exact validateArgToken_flag_ok (List.mem_filter.mp hfmem).2
  constructor
  · rw [hb1]
    have hname : pyReplaceDel "--command=" ("--command=" ++ command) = command := hrep
    simp only [validate_command_structure, hstart0, Bool.not_true, Bool.false_eq_true,
      if_false, hname, hcmd, hsafety, hstructure]
  · rw [hb0]
    simp only [validate_command_structure, hbin, Bool.not_false, if_true]

/-- Witness for C2: a concrete container-mode round trip succeeds, and the
same build in local mode is rejected. -/
theorem c2_roundtrip_witness :
    validate_command_structure (build_command_from_dict true "/opt/UniDesign/UniDesign"
      "ProteinDesign" [("pdb", "input.pdb")] ["ppint"]) = Except.ok true
    ∧ validate_command_structure (build_command_from_dict false "/opt/UniDesign/UniDesign"
      "ProteinDesign" [("pdb", "input.pdb")] ["ppint"]) =
      Except.error .badFirstArgument :=
  c2_roundtrip "ProteinDesign" "/opt/UniDesign/UniDesign" [("pdb", "input.pdb")]
    ["ppint"] (by decide) (by decide)
    (by
      intro kv hkv hval hne
      simp only [List.mem_singleton] at hkv
      subst hkv
      exact ⟨by decide, fun _ => by decide⟩)

/-- Counterexample for C2 as stated: with the Registry-valid key `pdb` and
the value `";"`, the built vector is rejected with `DangerousPattern`, so
the round trip does not succeed for arbitrary argument mappings. -/
theorem c2_counter :
    validate_command_structure (build_command_from_dict true "/opt/UniDesign/UniDesign"
      "ProteinDesign" [("pdb", ";")] []) =
      Except.error (.dangerousPattern "--pdb=;") := by decide

/-- Claim C9 (amended): an element containing `=` passes the structural
check iff its key with every `--` occurrence removed is a Registry-valid
argument key AND, when that stripped key is `pdb` and the value is
non-empty, the value also passes PDB path validation.  No leading `--`
marker is required. -/
theorem c9_arg_structure (arg : String) (h : arg.data.contains '=' = true) :
    validate_argument_structure [arg] = Except.ok () ↔
      (is_valid_argument (pyReplaceDel "--" (splitEq arg).1) = true
       ∧ (pyReplaceDel "--" (splitEq arg).1 = "pdb" → (splitEq arg).2 ≠ "" →
          validate_pdb_path (splitEq arg).2 = Except.ok ())) := by
  have hsingle : validate_argument_structure [arg] = Except.ok () ↔
      validateArgToken arg = Except.ok () := by
    cases ht : validateArgToken arg with
    | error e => simp [validate_argument_structure, ht]
    | ok u => cases u; simp [validate_argument_structure, ht]
  rw [hsingle]
  simp only [validateArgToken, h, if_true]
  by_cases hv : is_valid_argument (pyReplaceDel "--" (splitEq arg).1) = true
  · simp only [hv, Bool.not_true, Bool.false_eq_true, if_false]
    by_cases hkp : pyReplaceDel "--" (splitEq arg).1 = "pdb"
    · by_cases hval : (splitEq arg).2 = ""
      · simp [hkp, hval, hv]
      · have hcond : ((pyReplaceDel "--" (splitEq arg).1 == "pdb")
            && !((splitEq arg).2 == "")) = true := by
          simp [hkp, hval]
        simp only [hcond, if_true]
        constructor
        · intro hpv
          exact ⟨trivial, fun _ _ => hpv⟩
        · intro hh
          exact hh.2 hkp hval
    · have hcond : ((pyReplaceDel "--" (splitEq arg).1 == "pdb")
          && !((splitEq arg).2 == "")) = false := by
        simp [hkp]
      simp only [hcond, Bool.false_eq_true, if_false]
      constructor
      · intro _
        exact ⟨trivial, fun hk _ => absurd hk hkp⟩
      · intro _
        trivial
  · have hv' : is_valid_argument (pyReplaceDel "--" (splitEq arg).1) = false := by
      cases hq : is_valid_argument (pyReplaceDel "--" (splitEq arg).1)
      · rfl
      · exact absurd hq hv
    simp only [hv', Bool.not_false, if_true]
    constructor
    · intro hh
      exact absurd hh (by simp)
    · intro hh
      exact absurd hh.1 Bool.false_ne_true

/-- Witness for C9: the marker-less token `pdb=x.pdb` and the
repeated-marker token `----pdb=x.pdb` both pass the structural check. -/
theorem c9_arg_structure_witness :
    ("----pdb=x.pdb" : String).data.contains '=' = true
    ∧ validate_argument_structure ["----pdb=x.pdb"] = Except.ok ()
    ∧ validate_argument_structure ["pdb=x.pdb"] = Except.ok () :=
  ⟨by decide,
   (c9_arg_structure "----pdb=x.pdb" (by decide)).mpr
     ⟨by decide, fun _ _ => by decide⟩,
   (c9_arg_structure "pdb=x.pdb" (by decide)).mpr
     ⟨by decide, fun _ _ => by decide⟩⟩

/-- Counterexample for C9 as stated: for `pdb=x` the stripped key `pdb` is
Registry-valid, yet the structural check rejects the token (the embedded
PDB path validation fails on the extension), so acceptance is not
equivalent to key validity alone. -/
theorem c9_counter :
    ("pdb=x" : String).data.contains '=' = true
    ∧ is_valid_argument (pyReplaceDel "--" (splitEq "pdb=x").1) = true
    ∧ validate_argument_structure ["pdb=x"] = Except.error .pdbBadExtension := by decide

/-! ## Filename-sanitization lemmas and Claim C7 -/

lemma lowerChar_eq_dot {c : Char} (h : lowerChar c = '.') : c = '.' := by
  unfold lowerChar at h
  by_cases hA : c = 'A'
  · rw [if_pos hA] at h
    exact absurd h (by decide)
  rw [if_neg hA] at h
  by_cases hB : c = 'B'
  · rw [if_pos hB] at h
    exact absurd h (by decide)
  rw [if_neg hB] at h
  by_cases hC : c = 'C'
  · rw [if_pos hC] at h
    exact absurd h (by decide)
  rw [if_neg hC] at h
  by_cases hD : c = 'D'
  · rw [if_pos hD] at h
    exact absurd h (by decide)
  rw [if_neg hD] at h
  by_cases hE : c = 'E'
  · rw [if_pos hE] at h
    exact absurd h (by decide)
  rw [if_neg hE] at h
  by_cases hF : c = 'F'
  · rw [if_pos hF] at h
    exact absurd h (by decide)
  rw [if_neg hF] at h
  by_cases hG : c = 'G'
  · rw [if_pos hG] at h
    exact absurd h (by decide)
  rw [if_neg hG] at h
  by_cases hH : c = 'H'
  · rw [if_pos hH] at h
    exact absurd h (by decide)
  rw [if_neg hH] at h
  by_cases hI : c = 'I'
  · rw [if_pos hI] at h
    exact absurd h (by decide)
  rw [if_neg hI] at h
  by_cases hJ : c = 'J'
  · rw [if_pos hJ] at h
    exact absurd h (by decide)
  rw [if_neg hJ] at h
  by_cases hK : c = 'K'
  · rw [if_pos hK] at h
    exact absurd h (by decide)
  rw [if_neg hK] at h
  by_cases hL : c = 'L'
  · rw [if_pos hL] at h
    exact absurd h (by decide)
  rw [if_neg hL] at h
  by_cases hM : c = 'M'
  · rw [if_pos hM] at h
    exact absurd h (by decide)
  rw [if_neg hM] at h
  by_cases hN : c = 'N'
  · rw [if_pos hN] at h
    exact absurd h (by decide)
  rw [if_neg hN] at h
  by_cases hO : c = 'O'
  · rw [if_pos hO] at h
    exact absurd h (by decide)
  rw [if_neg hO] at h
  by_cases hP : c = 'P'
  · rw [if_pos hP] at h
    exact absurd h (by decide)
  rw [if_neg hP] at h
  by_cases hQ : c = 'Q'
  · rw [if_pos hQ] at h
    exact absurd h (by decide)
  rw [if_neg hQ] at h
  by_cases hR : c = 'R'
  · rw [if_pos hR] at h
    exact absurd h (by decide)
  rw [if_neg hR] at h
  by_cases hS : c = 'S'
  · rw [if_pos hS] at h
    exact absurd h (by decide)
  rw [if_neg hS] at h
  by_cases hT : c = 'T'
  · rw [if_pos hT] at h
    exact absurd h (by decide)
  rw [if_neg hT] at h
  by_cases hU : c = 'U'
  · rw [if_pos hU] at h
    exact absurd h (by decide)
  rw [if_neg hU] at h
  by_cases hV : c = 'V'
  · rw [if_pos hV] at h
    exact absurd h (by decide)
  rw [if_neg hV] at h
  by_cases hW : c = 'W'
  · rw [if_pos hW] at h
    exact absurd h (by decide)
  rw [if_neg hW] at h
  by_cases hX : c = 'X'
  · rw [if_pos hX] at h
    exact absurd h (by decide)
  rw [if_neg hX] at h
  by_cases hY : c = 'Y'
  · rw [if_pos hY] at h
    exact absurd h (by decide)
  rw [if_neg hY] at h
  by_cases hZ : c = 'Z'
  · rw [if_pos hZ] at h
    exact absurd h (by decide)
  rw [if_neg hZ] at h
  exact h

lemma lowerChar_ne_dot_of {c x : Char} (h : lowerChar c = x) (hx : x ≠ '.') :
    c ≠ '.' := by
  intro hc
  subst hc
  have hd : lowerChar '.' = '.' := by decide
  rw [hd] at h
  exact hx h.symm

lemma sanitizeChar_allowed (c : Char) : isAllowedChar (sanitizeChar c) = true := by
  unfold sanitizeChar
  split
  · assumption
  · decide

lemma sanitized_all_allowed (l : List Char) :
    (l.map sanitizeChar).all isAllowedChar = true := by
  rw [List.all_map]
  apply List.all_eq_true.mpr
  intro c _
  exact sanitizeChar_allowed c

lemma endsWithPdb_append (x : String) : endsWithPdb (x ++ ".pdb") = true := by
  unfold endsWithPdb
  rw [str_data_append]
  apply List.isSuffixOf_iff_suffix.mpr
  rw [List.map_append]
  have hlit : (".pdb" : String).data.map lowerChar = ['.', 'p', 'd', 'b'] := by decide
  rw [hlit]
  exact List.suffix_append _ _

lemma sanitized2_all (s : String) : (sanitized2Of s).data.all isAllowedChar = true := by
  unfold sanitized2Of
  split
  · exact sanitized_all_allowed s.data
  · rw [str_data_append, List.all_append]
    rw [Bool.and_eq_true]
    exact ⟨sanitized_all_allowed s.data, by decide⟩

lemma sanitized2_ends (s : String) : endsWithPdb (sanitized2Of s) = true := by
  unfold sanitized2Of
  split
  · assumption
  · exact endsWithPdb_append _

lemma rsplitDot_pdb {s : String} (h : endsWithPdb s = true) :
    ∃ nm ext : String, rsplitDot s = some (nm, ext)
      ∧ ext.data.map lowerChar = ['p', 'd', 'b']
      ∧ ext.data.length = 3
      ∧ (∀ c ∈ nm.data, c ∈ s.data)
      ∧ (∀ c ∈ ext.data, c ∈ s.data) := by
  have hsuf : ['.', 'p', 'd', 'b'] <:+ s.data.map lowerChar :=
    List.isSuffixOf_iff_suffix.mp h
  have hpre : ['b', 'd', 'p', '.'] <+: (s.data.reverse).map lowerChar := by
    rw [List.map_reverse]
    exact List.reverse_prefix.mpr hsuf
  obtain ⟨t, ht⟩ := hpre
  have hmap : (s.data.reverse).map lowerChar = 'b' :: 'd' :: 'p' :: '.' :: t := ht.symm
  rw [List.map_eq_cons_iff] at hmap
  obtain ⟨c1, r1, hr, hc1, hmap1⟩ := hmap
  rw [List.map_eq_cons_iff] at hmap1
  obtain ⟨c2, r2, hr1, hc2, hmap2⟩ := hmap1
  rw [List.map_eq_cons_iff] at hmap2
  obtain ⟨c3, r3, hr2, hc3, hmap3⟩ := hmap2
  rw [List.map_eq_cons_iff] at hmap3
  obtain ⟨c4, r4, hr3, hc4, _⟩ := hmap3
  have hn1 : ¬(c1 = '.') := lowerChar_ne_dot_of hc1 (by decide)
  have hn2 : ¬(c2 = '.') := lowerChar_ne_dot_of hc2 (by decide)
  have hn3 : ¬(c3 = '.') := lowerChar_ne_dot_of hc3 (by decide)
  have he4 : c4 = '.' := lowerChar_eq_dot hc4
  have hrev : s.data.reverse = c1 :: c2 :: c3 :: c4 :: r4 := by
    rw [hr, hr1, hr2, hr3]
  have hdotmem : '.' ∈ s.data := by
    rw [← List.mem_reverse, hrev, ← he4]
    simp
  have hcont : s.data.contains '.' = true := contains_iff_mem.mpr hdotmem
  have hP1 : (!(c1 == '.')) = true := by simp [hn1]
  have hP2 : (!(c2 == '.')) = true := by simp [hn2]
  have hP3 : (!(c3 == '.')) = true := by simp [hn3]
  have hP4 : (!(c4 == '.')) = false := by simp [he4]
  refine ⟨⟨r4.reverse⟩, ⟨[c3, c2, c1]⟩, ?_, ?_, ?_, ?_, ?_⟩
  · simp only [rsplitDot, hcont, if_true, hrev, List.takeWhile_cons,
      List.dropWhile_cons, hP1, hP2, hP3, hP4, if_true, Bool.false_eq_true, if_false]
    simp [List.reverse_cons]
  · simp [hc3, hc2, hc1]
  · rfl
  · intro c hcmem
    have hcr4 : c ∈ r4 := by
      simpa using hcmem
    rw [← List.mem_reverse, hrev]
    simp [hcr4]
  · intro c hcmem
    rw [← List.mem_reverse, hrev]
    simp at hcmem
    rcases hcmem with rfl | rfl | rfl <;> simp

lemma trunc_good {t : String}
    (hall : t.data.all isAllowedChar = true) (hend : endsWithPdb t = true) :
    ∃ nm ext : String, rsplitDot t = some (nm, ext)
      ∧ goodName (Except.ok ((⟨nm.data.take 95⟩ : String) ++ "." ++ ext)) = true := by
  obtain ⟨nm, ext, hsome, hmap, hlen3, hnmm, hextm⟩ := rsplitDot_pdb hend
  refine ⟨nm, ext, hsome, ?_⟩
  have hdata : (((⟨nm.data.take 95⟩ : String) ++ "." ++ ext)).data
      = nm.data.take 95 ++ '.' :: ext.data := by
    rw [str_data_append, str_data_append]
    simp
  have hallmem := List.all_eq_true.mp hall
  have hA : (((⟨nm.data.take 95⟩ : String) ++ "." ++ ext)).data.all isAllowedChar
      = true := by
    rw [hdata]
    rw [List.all_append, Bool.and_eq_true]
    constructor
    · apply List.all_eq_true.mpr
      intro c hc
      exact hallmem c (hnmm c ((List.take_sublist 95 nm.data).subset hc))
    · rw [List.all_cons, Bool.and_eq_true]
      constructor
      · decide
      · apply List.all_eq_true.mpr
        intro c hc
        exact hallmem c (hextm c hc)
  have hB : endsWithPdb ((⟨nm.data.take 95⟩ : String) ++ "." ++ ext) = true := by
    unfold endsWithPdb
    rw [hdata, List.map_append]
    apply List.isSuffixOf_iff_suffix.mpr
    have hm2 : List.map lowerChar ('.' :: ext.data) = ['.', 'p', 'd', 'b'] := by
      rw [List.map_cons, hmap]
      rfl
    rw [hm2]
    exact List.suffix_append _ _
  have hC : decide ((((⟨nm.data.take 95⟩ : String) ++ "." ++ ext)).data.length ≤ 100)
      = true := by
    rw [decide_eq_true_eq, hdata, List.length_append, List.length_cons, hlen3,
      List.length_take]
    omega
  simp only [goodName, hA, hB, hC]
  rfl

/-- Claim C7 (amended): for every non-empty input that passes the
dangerous-pattern scan, `validate_filename` returns a sanitized name made
only of characters in `[a-zA-Z0-9._-]`, ending (case-insensitively) in
`.pdb`, of length at most 100.  (As the counterexample shows, inputs
matching a dangerous pattern - such as the claim's own example - raise
`SecurityError` instead of being sanitized.) -/
theorem c7_sanitize (s : String) (hne : s ≠ "") (hsafe : isDangerous s = false) :
    goodName (validate_filename s) = true := by
  have hs0 : (s == "") = false := by simp [hne]
  have hsafety : validate_argument_safety s = Except.ok () := by
    simp [validate_argument_safety, hsafe]
  have hall := sanitized2_all s
  have hend := sanitized2_ends s
  by_cases hL : (sanitized2Of s).data.length > 100
  · obtain ⟨nm, ext, hsome, hgood⟩ := trunc_good hall hend
    simp only [validate_filename, hs0, Bool.false_eq_true, if_false, hsafety]
    rw [if_pos hL]
    simp only [hsome]
    exact hgood
  · simp only [validate_filename, hs0, Bool.false_eq_true, if_false, hsafety]
    rw [if_neg hL]
    have hle : decide ((sanitized2Of s).data.length ≤ 100) = true := by
      rw [decide_eq_true_eq]
      omega
    simp only [goodName, hall, hend, hle]
    rfl

/-- Witness for C7: a concrete pattern-safe input is sanitized to an
allowed-charset name ending in `.pdb`. -/
theorem c7_sanitize_witness :
    ("my file v2.txt" : String) ≠ "" ∧ isDangerous "my file v2.txt" = false
    ∧ goodName (validate_filename "my file v2.txt") = true :=
  ⟨by decide, by decide, c7_sanitize "my file v2.txt" (by decide) (by decide)⟩

/-- Counterexample for C7 as stated: the claim's own example input
`"../../evil;rm.pdb"` is not sanitized and returned; `validate_filename`
raises (the dangerous-pattern scan runs first and `..`, `/`, `;` match). -/
theorem c7_counter :
    validate_filename "../../evil;rm.pdb" =
      Except.error (.dangerousPattern "../../evil;rm.pdb") := by decide

/-! ## Path-translation lemmas and Claims C5, C6 -/

lemma prefix_append_left {x a b : List Char} (h : a <+: b) : x ++ a <+: x ++ b := by
  obtain ⟨t, rfl⟩ := h
  exact ⟨t, by rw [List.append_assoc]⟩

lemma joinSlash_pre (a b : List String) :
    (joinSlash a).data <+: (joinSlash (a ++ b)).data := by
  induction a with
  | nil => simp [joinSlash]
  | cons x a' ih =>
    cases a' with
    | nil =>
      cases b with
      | nil => exact List.prefix_refl _
      | cons y ys =>
        have h2 : (joinSlash ([x] ++ y :: ys)).data
            = (x.data ++ ['/']) ++ (joinSlash (y :: ys)).data := rfl
        have h1 : (joinSlash [x]).data = x.data := rfl
        rw [h1, h2, List.append_assoc]
        exact List.prefix_append _ _
    | cons z zs =>
      have h1 : (joinSlash (x :: z :: zs)).data
          = (x.data ++ ['/']) ++ (joinSlash (z :: zs)).data := rfl
      have h2 : (joinSlash ((x :: z :: zs) ++ b)).data
          = (x.data ++ ['/']) ++ (joinSlash ((z :: zs) ++ b)).data := rfl
      rw [h1, h2]
      exact prefix_append_left ih

lemma pathStr_le {a b : PurePath} (ha : a.root ≠ "") (hb : b.root ≠ "")
    (hp : allParts a <+: allParts b) : (pathStr a).data <+: (pathStr b).data := by
  have ha' : (a.root == "") = false := by simp [ha]
  have hb' : (b.root == "") = false := by simp [hb]
  have haP : allParts a = a.root :: a.comps := by simp [allParts, ha']
  have hbP : allParts b = b.root :: b.comps := by simp [allParts, hb']
  rw [haP, hbP] at hp
  rw [List.cons_prefix_cons] at hp
  obtain ⟨hroot, hcomps⟩ := hp
  have hsa : pathStr a = a.root ++ joinSlash a.comps := by simp [pathStr, ha']
  have hsb : pathStr b = b.root ++ joinSlash b.comps := by simp [pathStr, hb']
  rw [hsa, hsb, str_data_append, str_data_append, ← hroot]
  apply prefix_append_left
  obtain ⟨rest, hrest⟩ := hcomps
  rw [← hrest]
  exact joinSlash_pre a.comps rest

lemma lower_le {a b : String} (h : a.data <+: b.data) :
    (lowerStr a).data <+: (lowerStr b).data := by
  obtain ⟨t, ht⟩ := h
  refine ⟨t.map lowerChar, ?_⟩
  show a.data.map lowerChar ++ t.map lowerChar = b.data.map lowerChar
  rw [← List.map_append, ht]

lemma guard_of_parts {host vp : PurePath} (hh : host.root ≠ "") (hv : vp.root ≠ "")
    (hp : allParts host <+: allParts vp) :
    strStarts (lowerStr (pathStr host)) (lowerStr (pathStr vp)) = true := by
  unfold strStarts
  rw [isPrefixOf_true_iff]
  exact lower_le (pathStr_le hh hv hp)

lemma relative_to_ok_drop {a b : PurePath} (hb : b.root ≠ "")
    (hp : allParts b <+: allParts a) :
    relative_to a b = .ok ((allParts a).drop (allParts b).length) := by
  have hb' : (b.root == "") = false := by simp [hb]
  have hne : (allParts b).isEmpty = false := by simp [allParts, hb']
  simp [relative_to, hne, isPrefixOf_true_iff.mpr hp]

lemma relative_to_err {a b : PurePath} (hb : b.root ≠ "")
    (hnp : ¬(allParts b <+: allParts a)) : relative_to a b = .error () := by
  have hb' : (b.root == "") = false := by simp [hb]
  have hne : (allParts b).isEmpty = false := by simp [allParts, hb']
  have hpf : (allParts b).isPrefixOf (allParts a) = false := by
    cases hq : (allParts b).isPrefixOf (allParts a)
    · rfl
    · exact absurd (isPrefixOf_true_iff.mp hq) hnp
  simp [relative_to, hne, hpf]

lemma abs_root_ne {p : PurePath} (h : p.is_absolute = true) : p.root ≠ "" := by
  intro hh
  rw [PurePath.is_absolute, hh] at h
  simp at h

lemma convert_noeq {host : PurePath} {croot t : String}
    (ht : t.data.contains '=' = false) :
    convert_arg host croot t =
      (if (parsePath t).is_absolute
          && strStarts (lowerStr (pathStr host)) (lowerStr (pathStr (parsePath t))) then
        match relative_to (parsePath t) host with
        | .ok rel => .ok (croot ++ "/" ++ posixJoin rel)
        | .error _ => .ok t
      else .ok t) := by
  simp only [convert_arg, ht, Bool.false_eq_true, if_false]

lemma token_data_eq (k v : String) :
    (k ++ "=" ++ v).data = k.data ++ '=' :: v.data := by
  rw [str_data_append, str_data_append, List.append_assoc]
  rfl

lemma convert_eq_branch {host : PurePath} {croot k v : String}
    (hk : k.data.contains '=' = false) :
    convert_arg host croot (k ++ "=" ++ v) =
      (if (parsePath v).is_absolute
          && strStarts (lowerStr (pathStr host)) (lowerStr (pathStr (parsePath v))) then
        match relative_to (parsePath v) host with
        | .ok rel => .ok (k ++ "=" ++ croot ++ "/" ++ posixJoin rel)
        | .error _ => .error ()
      else .ok (k ++ "=" ++ v)) := by
  have hc : (k ++ "=" ++ v).data.contains '=' = true := by
    apply contains_iff_mem.mpr
    rw [token_data_eq]
    simp
  have hsE : splitEq (k ++ "=" ++ v) = (k, v) := by
    have hsplit := splitFirstOn_append (b := v.data) hk
    simp only [splitEq, token_data_eq, hsplit]
  simp only [convert_arg, hc, if_true, hsE]

/-- Claim C5 (amended): a token (its value part for `key=value` tokens) is
rewritten if and only if it parses to an absolute path whose parts are a
prefix, case-sensitively and at component granularity, of the host
working directory's parts; the rewrite replaces those parts by the
container root and re-joins the remainder with forward slashes.  A token
that is absolute and matches only the case-insensitive string-prefix
guard (e.g. differing in case, or matching inside a component) is NOT
rewritten: a standalone token is returned unchanged. -/
theorem c5_path_translation (host : PurePath) (croot : String)
    (hroot : host.root ≠ "") :
    (∀ t : String, t.data.contains '=' = false →
      convert_arg host croot t =
        .ok (if (parsePath t).is_absolute
                && (allParts host).isPrefixOf (allParts (parsePath t)) then
              croot ++ "/" ++ posixJoin
                ((allParts (parsePath t)).drop (allParts host).length)
            else t))
    ∧ (∀ k v : String, k.data.contains '=' = false →
        (((parsePath v).is_absolute = true) →
            (allParts host <+: allParts (parsePath v)) →
            convert_arg host croot (k ++ "=" ++ v) =
              .ok (k ++ "=" ++ croot ++ "/" ++ posixJoin
                ((allParts (parsePath v)).drop (allParts host).length)))
        ∧ (¬((parsePath v).is_absolute = true
              ∧ strStarts (lowerStr (pathStr host))
                  (lowerStr (pathStr (parsePath v))) = true) →
            convert_arg host croot (k ++ "=" ++ v) = .ok (k ++ "=" ++ v))) := by
  constructor
  · intro t ht
    rw [convert_noeq ht]
    by_cases habs : (parsePath t).is_absolute = true
    · by_cases hpfx : allParts host <+: allParts (parsePath t)
      · have hg := guard_of_parts hroot (abs_root_ne habs) hpfx
        have hpf : (allParts host).isPrefixOf (allParts (parsePath t)) = true :=
          isPrefixOf_true_iff.mpr hpfx
        rw [relative_to_ok_drop hroot hpfx]
        simp [habs, hg, hpf]
      · have hpf : (allParts host).isPrefixOf (allParts (parsePath t)) = false := by
          cases hq : (allParts host).isPrefixOf (allParts (parsePath t))
          · rfl
          · exact absurd (isPrefixOf_true_iff.mp hq) hpfx
        by_cases hg : strStarts (lowerStr (pathStr host))
            (lowerStr (pathStr (parsePath t))) = true
        · rw [relative_to_err hroot hpfx]
          simp [habs, hg, hpf]
        · have hg' : strStarts (lowerStr (pathStr host))
              (lowerStr (pathStr (parsePath t))) = false := by
            cases hq : strStarts (lowerStr (pathStr host))
                (lowerStr (pathStr (parsePath t)))
            · rfl
            · exact absurd hq hg
          simp [habs, hg', hpf]
    · have habs' : (parsePath t).is_absolute = false := by
        cases hq : (parsePath t).is_absolute
        · rfl
        · exact absurd hq habs
      simp [habs']
  · intro k v hk
    constructor
    · intro habs hpfx
      rw [convert_eq_branch hk]
      have hg := guard_of_parts hroot (abs_root_ne habs) hpfx
      rw [relative_to_ok_drop hroot hpfx]
      simp [habs, hg]
    · intro hng
      rw [convert_eq_branch hk]
      have hcond : ((parsePath v).is_absolute
          && strStarts (lowerStr (pathStr host))
              (lowerStr (pathStr (parsePath v)))) = false := by
        cases h1 : (parsePath v).is_absolute
        · rfl
        · cases h2 : strStarts (lowerStr (pathStr host))
              (lowerStr (pathStr (parsePath v)))
          · simp
          · exact absurd ⟨h1, h2⟩ hng
      simp [hcond]

/-- Witness for C5: under host directory `/home/user` and container root
`/data`, the token `/home/user/a/b.pdb` becomes `/data/a/b.pdb` exactly
(also inside a `key=value` token), and a non-prefixed token is unchanged. -/
theorem c5_path_translation_witness :
    (parsePath "/home/user").root ≠ ""
    ∧ convert_arg (parsePath "/home/user") "/data" "/home/user/a/b.pdb" =
        .ok "/data/a/b.pdb"
    ∧ convert_arg (parsePath "/home/user") "/data" "--pdb=/home/user/a/b.pdb" =
        .ok "--pdb=/data/a/b.pdb"
    ∧ convert_arg (parsePath "/home/user") "/data" "other.pdb" = .ok "other.pdb" := by
  have h := c5_path_translation (parsePath "/home/user") "/data" (by decide)
  refine ⟨by decide, ?_, ?_, ?_⟩
  · rw [h.1 "/home/user/a/b.pdb" (by decide)]
    decide
  · have h2 := (h.2 "--pdb" "/home/user/a/b.pdb" (by decide)).1 (by decide) (by decide)
    have hlit : ("--pdb=/home/user/a/b.pdb" : String)
        = "--pdb" ++ "=" ++ "/home/user/a/b.pdb" := by decide
    rw [hlit, h2]
    decide
  · rw [h.1 "other.pdb" (by decide)]
    decide

/-- Counterexample for C5 as stated: with host directory `/home/us`, the
token `/home/user/a.pdb` is an absolute path whose string begins,
case-insensitively (here even case-sensitively), with the host directory
string, yet it is returned unchanged - `relative_to` requires a
component-aligned prefix and its failure is caught, keeping the token. -/
theorem c5_counter :
    (parsePath "/home/user/a.pdb").is_absolute = true
    ∧ strStarts (lowerStr (pathStr (parsePath "/home/us")))
        (lowerStr (pathStr (parsePath "/home/user/a.pdb"))) = true
    ∧ convert_paths_to_container ["/home/user/a.pdb"] (parsePath "/home/us") "/data" =
        .ok ["/home/user/a.pdb"] := by decide

/-- Claim C6 (code bug): in the `key=value` branch the `relative_to` call
is not inside a `try`, so on a token whose value passes the
case-insensitive guard but fails the component-wise prefix check the
`ValueError` escapes `_convert_paths_to_container` (the `Except` is an
error), while the same path as a standalone token is swallowed and kept. -/
theorem c6_convert_raises :
    convert_paths_to_container ["--pdb=/home/user/a.pdb"] (parsePath "/home/us")
        "/data" = .error ()
    ∧ convert_paths_to_container ["/home/user/a.pdb"] (parsePath "/home/us")
        "/data" = .ok ["/home/user/a.pdb"] := by decide
